import Mathlib

/-!
Verification of the Raktar recipe-browser client against its specification.

The development shallowly embeds the program's core logic:
- the timeout wrapper of `src/utils/api.ts` (`timeout`) as a small state
  machine over settlement events;
- the API client of `src/utils/api.ts` (`handleResponse`,
  `fetchRandomRecipes`, `fetchRecipeById`, `searchRecipes`) as pure
  functions over an explicit backend environment, with `Except String`
  standing for promise rejection and `promiseAll` for `Promise.all`;
- the favourites store of `src/hooks/useFavourites.ts` as pure list
  transformers;
- the navigation and search-state cache of `src/App.tsx` as pure state
  transformers.
-/

namespace Raktar

/-- A recipe record as returned by the MealDB API (`IMeal` in
`src/types`).  The TypeScript interface carries many more string fields
(category, area, instructions, the twenty positional ingredient and
measure slots); none of them is inspected by the operations modelled
here, which look only at `idMeal`, so the embedding keeps the fields the
code reads (`idMeal`, `strMeal`, `strMealThumb`) and drops the inert
rest. -/
structure IMeal where
  idMeal : String
  strMeal : String
  strMealThumb : String
deriving DecidableEq, Repr

/-- A favourite is a recipe record plus an optional user comment
(`IFavourite extends IMeal { userComment?: string }` in `src/types`). -/
structure IFavourite extends IMeal where
  userComment : Option String := none
deriving DecidableEq, Repr

/-- The favourite stored by `addFavourite`: the meal object itself, with
no `userComment` field set (the hook pushes the `IMeal` unchanged). -/
def IMeal.toFavourite (meal : IMeal) : IFavourite :=
  { toIMeal := meal, userComment := none }

/-! ## Timeout wrapper (`timeout` in `src/utils/api.ts`)

The wrapper creates a promise, starts a deadline timer that sets a
`timedOut` flag and rejects, and runs the wrapped operation, whose
callbacks return early when `timedOut` is set and otherwise cancel the
timer and settle the promise.  We model one run as a fold over the
settlement events that occur (the timer firing, the operation resolving
or rejecting), acting on a state that records the flag, the timer's
status, the promise's settlement and how many times `resolve`/`reject`
was invoked on it. -/

/-- A settlement event observed by the `timeout` wrapper: the deadline
timer fires, or the wrapped operation resolves with a value or rejects
with an error. -/
inductive TimeoutEvent (T : Type) where
  | timerFire
  | opResolve (v : T)
  | opReject (e : String)

/-- The state of one `timeout` run: the `timedOut` flag, whether
`clearTimeout` was called, whether the timer already fired, the
settlement of the returned promise (`none` while pending), and the
number of `resolve`/`reject` calls made on that promise. -/
structure TimeoutState (T : Type) where
  timedOut : Bool
  timerCancelled : Bool
  timerFired : Bool
  result : Option (Except String T)
  settleCalls : Nat

/-- The state when `timeout` is entered: flag clear, timer pending,
promise unsettled. -/
def initTimeoutState (T : Type) : TimeoutState T :=
  { timedOut := false, timerCancelled := false, timerFired := false
    result := none, settleCalls := 0 }

/-- Invoking `resolve` or `reject` on the promise: counts the call and,
as a JS promise settles at most once, records only the first outcome. -/
def promiseSettle (s : TimeoutState T) (o : Except String T) : TimeoutState T :=
  { s with
    settleCalls := s.settleCalls + 1
    result := match s.result with
      | some r => some r
      | none => some o }

/-- One settlement event of the `timeout` wrapper.  The timer callback
(which cannot run once cancelled, and runs at most once) sets `timedOut`
and rejects with the timeout message; the operation's callbacks return
early when `timedOut` is set, and otherwise cancel the timer and settle
the promise with the operation's outcome — exactly the source's
`setTimeout` body and the `.then`/`.catch` handlers. -/
def timeoutStep (timeoutMessage : String) (s : TimeoutState T) :
    TimeoutEvent T → TimeoutState T
  | .timerFire =>
    if s.timerCancelled || s.timerFired then s
    else promiseSettle { s with timedOut := true, timerFired := true }
      (.error timeoutMessage)
  | .opResolve v =>
    if s.timedOut then s
    else promiseSettle { s with timerCancelled := true } (.ok v)
  | .opReject e =>
    if s.timedOut then s
    else promiseSettle { s with timerCancelled := true } (.error e)

/-- A whole run of the `timeout` wrapper over the sequence of settlement
events that occur, in order. -/
def runTimeout (timeoutMessage : String) (events : List (TimeoutEvent T)) :
    TimeoutState T :=
  events.foldl (timeoutStep timeoutMessage) (initTimeoutState T)

/-- C1: The timeout wrapper settles its returned result exactly once:
when the wrapped operation settles (resolves or rejects) strictly after
the deadline fired, that later outcome is discarded and the caller
observes only the timeout failure with the given message; when the
operation settles before the deadline, the timer is cancelled (so a
later firing changes nothing) and the caller observes the operation's
own outcome.  In every interleaving the promise is settled by exactly
one `resolve`/`reject` call. -/
theorem timeout_settles_exactly_once (T : Type) (msg : String) (v : T) (e : String) :
    (runTimeout msg [.timerFire, .opResolve v] =
      { timedOut := true, timerCancelled := false, timerFired := true
        result := some (.error msg), settleCalls := 1 }) ∧
    (runTimeout msg ([.timerFire, .opReject e] : List (TimeoutEvent T)) =
      { timedOut := true, timerCancelled := false, timerFired := true
        result := some (.error msg), settleCalls := 1 }) ∧
    (runTimeout msg [.opResolve v, .timerFire] =
      { timedOut := false, timerCancelled := true, timerFired := false
        result := some (.ok v), settleCalls := 1 }) ∧
    (runTimeout msg ([.opReject e, .timerFire] : List (TimeoutEvent T)) =
      { timedOut := false, timerCancelled := true, timerFired := false
        result := some (.error e), settleCalls := 1 }) := by
  refine ⟨rfl, rfl, rfl, rfl⟩

/-! ## API client (`src/utils/api.ts`)

Network calls are modelled against an explicit backend environment: each
endpoint maps its argument to the HTTP response the backend produced for
that call.  A promise that may reject becomes `Except String`, carrying
the thrown `Error`'s message. -/

/-- An HTTP response as the client observes it: the `ok` flag, the
`statusText`, and the parsed JSON body's `meals` field, where `none`
models the MealDB convention `meals: null` for "no results". -/
structure ApiResponse where
  ok : Bool
  statusText : String
  meals : Option (List IMeal)

/-- The message of the error thrown by `handleResponse` on a non-OK
HTTP response. -/
def httpErrorMessage (statusText : String) : String :=
  "API request failed: " ++ statusText

/-- The message of the error thrown by `fetchRecipeById` when the
backend returns no matching record. -/
def notFoundMessage (id : String) : String :=
  "Recipe with ID " ++ id ++ " not found."

/-- The `meals` list of a response after the client's normalization:
`meals: null` becomes the empty list. -/
def normalizedMeals (r : ApiResponse) : List IMeal :=
  match r.meals with
  | none => []
  | some ms => ms

/-- The response handler `handleResponse`: throws on a non-OK response,
otherwise yields the `meals` array, normalizing `null` to `[]`. -/
def handleResponse (r : ApiResponse) : Except String (List IMeal) :=
  if !r.ok then .error (httpErrorMessage r.statusText)
  else .ok (normalizedMeals r)

/-- The semantics of `Promise.all` on an already-determined list of
settlements: rejects with the first rejection, otherwise resolves with
the list of all values in order. -/
def promiseAll : List (Except String α) → Except String (List α)
  | [] => .ok []
  | p :: ps =>
    match p with
    | .error e => .error e
    | .ok v =>
      match promiseAll ps with
      | .error e => .error e
      | .ok vs => .ok (v :: vs)

/-- The backend, as the environment of one client operation: the
response of the i-th `random.php` call, and the responses of
`lookup.php?i=`, `search.php?s=`, `filter.php?i=` and `filter.php?a=`
for a given argument. -/
structure ApiEnv where
  random : Nat → ApiResponse
  lookup : String → ApiResponse
  searchName : String → ApiResponse
  filterIngredient : String → ApiResponse
  filterArea : String → ApiResponse

/-- The client operation `fetchRandomRecipes`: `count` parallel
`random.php` calls each put through `handleResponse`, awaited with
`Promise.all`, and the resulting array of arrays flattened with
`flat()`. -/
def fetchRandomRecipes (env : ApiEnv) (count : Nat) : Except String (List IMeal) :=
  match promiseAll ((List.range count).map (fun i => handleResponse (env.random i))) with
  | .error e => .error e
  | .ok results => .ok results.flatten

/-- The client operation `fetchRecipeById`: one `lookup.php?i=` call put
through `handleResponse`; an empty result list raises the not-found
error, otherwise the first element is returned. -/
def fetchRecipeById (env : ApiEnv) (id : String) : Except String IMeal :=
  match handleResponse (env.lookup id) with
  | .error e => .error e
  | .ok results =>
    match results with
    | [] => .error (notFoundMessage id)
    | m :: _ => .ok m

/-- The argument of `searchRecipes`: the three filter fields.  The
source tests each with JS string truthiness, i.e. against `""`. -/
structure SearchParams where
  name : String
  ingredient : String
  area : String

/-- The URL `searchRecipes` builds, identified by endpoint and
argument. -/
inductive SearchUrl where
  | searchByName (s : String)
  | filterByIngredient (s : String)
  | filterByArea (s : String)
deriving DecidableEq, Repr

/-- The URL-selection chain of `searchRecipes`: name, else ingredient,
else area, else `none` (the random fallback branch). -/
def searchUrl (p : SearchParams) : Option SearchUrl :=
  if p.name ≠ "" then some (.searchByName p.name)
  else if p.ingredient ≠ "" then some (.filterByIngredient p.ingredient)
  else if p.area ≠ "" then some (.filterByArea p.area)
  else none

/-- The backend's response to one of `searchRecipes`'s URLs. -/
def fetchUrl (env : ApiEnv) : SearchUrl → ApiResponse
  | .searchByName s => env.searchName s
  | .filterByIngredient s => env.filterIngredient s
  | .filterByArea s => env.filterArea s

/-- The client operation `searchRecipes`: picks the URL by the priority
chain (falling back to nine random recipes when all fields are empty),
puts the response through `handleResponse`, and — when the ingredient
or area field is non-empty — re-fetches every returned record by its
`idMeal` with `fetchRecipeById`, awaiting all with `Promise.all`. -/
def searchRecipes (env : ApiEnv) (p : SearchParams) : Except String (List IMeal) :=
  match searchUrl p with
  | none => fetchRandomRecipes env 9
  | some url =>
    match handleResponse (fetchUrl env url) with
    | .error e => .error e
    | .ok results =>
      if p.ingredient ≠ "" ∨ p.area ≠ "" then
        promiseAll (results.map (fun lightMeal => fetchRecipeById env lightMeal.idMeal))
      else .ok results

/-- A successful `Promise.all` pairs every input settlement with the
corresponding output value, in order. -/
theorem promiseAll_ok_forall₂ {ps : List (Except String α)} {vs : List α}
    (h : promiseAll ps = .ok vs) :
    List.Forall₂ (fun p v => p = Except.ok v) ps vs := by
  induction ps generalizing vs with
  | nil =>
    simp only [promiseAll] at h
    cases h
    exact List.Forall₂.nil
  | cons p ps ih =>
    simp only [promiseAll] at h
    cases p with
    | error e => cases h
    | ok v =>
      cases hrest : promiseAll ps with
      | error e => rw [hrest] at h; cases h
      | ok ws =>
        rw [hrest] at h
        cases h
        exact List.Forall₂.cons rfl (ih hrest)

/-- A successful `Promise.all` yields exactly one value per input. -/
theorem promiseAll_ok_length {ps : List (Except String α)} {vs : List α}
    (h : promiseAll ps = .ok vs) : vs.length = ps.length :=
  (promiseAll_ok_forall₂ h).length_eq.symm

/-- Every element on the right of a `Forall₂` is related to some
element on the left. -/
theorem forall₂_mem_right {R : α → β → Prop} {l₁ : List α} {l₂ : List β}
    (h : List.Forall₂ R l₁ l₂) : ∀ b ∈ l₂, ∃ a ∈ l₁, R a b := by
  induction h with
  | nil => intro b hb; cases hb
  | cons hR _ ih =>
    intro b hb
    rcases List.mem_cons.mp hb with rfl | hb'
    · exact ⟨_, List.mem_cons_self _ _, hR⟩
    · obtain ⟨a, ha, hab⟩ := ih b hb'
      exact ⟨a, List.mem_cons_of_mem _ ha, hab⟩

/-- Every value of a successful `Promise.all` comes from a resolved
input. -/
theorem promiseAll_ok_mem {ps : List (Except String α)} {vs : List α}
    (h : promiseAll ps = .ok vs) : ∀ v ∈ vs, Except.ok v ∈ ps := by
  intro v hv
  obtain ⟨p, hp, hpv⟩ := forall₂_mem_right (promiseAll_ok_forall₂ h) v hv
  exact hpv ▸ hp

/-- `Promise.all` is fail-fast: one rejected input rejects the whole. -/
theorem promiseAll_error_of_mem {ps : List (Except String α)} {e : String}
    (h : Except.error e ∈ ps) : ∃ d, promiseAll ps = .error d := by
  induction ps with
  | nil => cases h
  | cons p ps ih =>
    rcases List.mem_cons.mp h with rfl | h'
    · exact ⟨e, rfl⟩
    · cases p with
      | error d => exact ⟨d, rfl⟩
      | ok v =>
        obtain ⟨d, hd⟩ := ih h'
        exact ⟨d, by simp only [promiseAll, hd]⟩

/-- A list of singleton lists flattens to one element per list. -/
theorem sum_map_length_of_one {vs : List (List α)}
    (h : ∀ l ∈ vs, l.length = 1) : (vs.map List.length).sum = vs.length := by
  induction vs with
  | nil => rfl
  | cons l vs ih =>
    have hl : l.length = 1 := h l (List.mem_cons_self l vs)
    simp only [List.map_cons, List.sum_cons, hl, List.length_cons,
      ih (fun x hx => h x (List.mem_cons_of_mem l hx)), Nat.add_comm]

/-- C2: when each successful `random.php` response carries exactly one
record (the MealDB contract for that endpoint), fetching N random
records either succeeds with exactly N records or fails entirely: a
success never carries fewer than N records, and one failed individual
fetch fails the whole operation. -/
theorem fetchRandomRecipes_all_or_nothing (env : ApiEnv) (count : Nat)
    (hone : ∀ i, i < count → ∀ ms, handleResponse (env.random i) = .ok ms →
      ms.length = 1) :
    (∀ meals, fetchRandomRecipes env count = .ok meals → meals.length = count) ∧
    ((∃ i, i < count ∧ ∃ e, handleResponse (env.random i) = .error e) →
      ∃ e, fetchRandomRecipes env count = .error e) := by
  constructor
  · intro meals h
    unfold fetchRandomRecipes at h
    cases hall : promiseAll ((List.range count).map
        (fun i => handleResponse (env.random i))) with
    | error e => rw [hall] at h; cases h
    | ok results =>
      rw [hall] at h
      cases h
      have hlen : results.length = count := by
        rw [promiseAll_ok_length hall, List.length_map, List.length_range]
      have hsing : ∀ l ∈ results, l.length = 1 := by
        intro l hl
        have hmem := promiseAll_ok_mem hall l hl
        obtain ⟨i, hi, hfi⟩ := List.mem_map.mp hmem
        exact hone i (List.mem_range.mp hi) l hfi
      rw [List.length_flatten, sum_map_length_of_one hsing, hlen]
  · rintro ⟨i, hi, e, he⟩
    have hmem : Except.error (α := List IMeal) e ∈
        (List.range count).map (fun i => handleResponse (env.random i)) :=
      List.mem_map.mpr ⟨i, List.mem_range.mpr hi, he⟩
    obtain ⟨d, hd⟩ := promiseAll_error_of_mem hmem
    exact ⟨d, by unfold fetchRandomRecipes; rw [hd]⟩

/-- A concrete record for exercising the client operations. -/
def sampleMeal (id : String) : IMeal :=
  { idMeal := id, strMeal := "Meal", strMealThumb := "thumb.png" }

/-- A successful response carrying the given records. -/
def okResponse (ms : List IMeal) : ApiResponse :=
  { ok := true, statusText := "OK", meals := some ms }

/-- A concrete backend: every `random.php` call returns one record,
lookups echo the requested id except for the id `"missing"` (empty
result) and the id `"bad"` (HTTP failure), and the filter endpoints
return fixed light lists. -/
def sampleEnv : ApiEnv :=
  { random := fun _ => okResponse [sampleMeal "r"]
    lookup := fun id =>
      if id = "missing" then okResponse []
      else if id = "bad" then { ok := false, statusText := "Not Found", meals := none }
      else okResponse [sampleMeal id]
    searchName := fun _ => okResponse [sampleMeal "n1"]
    filterIngredient := fun _ => okResponse [sampleMeal "f1", sampleMeal "f2"]
    filterArea := fun _ => okResponse [sampleMeal "a1"] }

/-- C2 at a concrete input: the contract hypothesis holds of
`sampleEnv`, whose `random.php` responses are singletons, so fetching
three random records yields three records or fails. -/
theorem fetchRandomRecipes_all_or_nothing_witness :
    (∀ meals, fetchRandomRecipes sampleEnv 3 = .ok meals → meals.length = 3) ∧
    ((∃ i, i < 3 ∧ ∃ e, handleResponse (sampleEnv.random i) = .error e) →
      ∃ e, fetchRandomRecipes sampleEnv 3 = .error e) :=
  fetchRandomRecipes_all_or_nothing sampleEnv 3 (by
    intro i _ ms hms
    simp only [sampleEnv, handleResponse, okResponse, normalizedMeals,
      Bool.not_true, Bool.false_eq_true, if_false, Except.ok.injEq] at hms
    rw [← hms]
    rfl)

/-- C3: the search URL is chosen by the first non-empty field in the
priority order name, ingredient, area — the values of the two
lower-priority fields never influence the chosen URL — and with all
three fields empty the search returns the nine-record random fetch
instead of failing. -/
theorem searchRecipes_dispatch (env : ApiEnv) (n i a i2 a2 : String) :
    (n ≠ "" → searchUrl ⟨n, i, a⟩ = some (.searchByName n)) ∧
    (n = "" → i ≠ "" → searchUrl ⟨n, i, a⟩ = some (.filterByIngredient i)) ∧
    (n = "" → i = "" → a ≠ "" → searchUrl ⟨n, i, a⟩ = some (.filterByArea a)) ∧
    (n ≠ "" → searchUrl ⟨n, i, a⟩ = searchUrl ⟨n, i2, a2⟩) ∧
    (n = "" → i ≠ "" → searchUrl ⟨n, i, a⟩ = searchUrl ⟨n, i, a2⟩) ∧
    (n = "" → i = "" → a = "" →
      searchUrl ⟨n, i, a⟩ = none ∧
      searchRecipes env ⟨n, i, a⟩ = fetchRandomRecipes env 9) := by
  refine ⟨?_, ?_, ?_, ?_, ?_, ?_⟩
  · intro hn
    simp [searchUrl, hn]
  · intro hn hi
    simp [searchUrl, hn, hi]
  · intro hn hi ha
    simp [searchUrl, hn, hi, ha]
  · intro hn
    simp [searchUrl, hn]
  · intro hn hi
    simp [searchUrl, hn, hi]
  · intro hn hi ha
    have hu : searchUrl ⟨n, i, a⟩ = none := by simp [searchUrl, hn, hi, ha]
    exact ⟨hu, by simp only [searchRecipes, hu]⟩

/-- C3 at the spec's concrete input: with all three of name, ingredient
and area populated, the request uses only the name filter. -/
theorem searchRecipes_dispatch_witness :
    searchUrl ⟨"chicken", "beef", "Italy"⟩ = some (.searchByName "chicken") :=
  (searchRecipes_dispatch sampleEnv "chicken" "beef" "Italy" "" "").1 (by decide)

/-- The transport-error message can never coincide with a not-found
message: the two start with different words. -/
theorem httpError_ne_notFound (st id : String) :
    httpErrorMessage st ≠ notFoundMessage id := by
  intro h
  have hd := congrArg String.data h
  rw [httpErrorMessage, notFoundMessage, String.data_append, String.data_append,
    String.data_append] at hd
  have h1 : "API request failed: ".data = 'A' :: "PI request failed: ".data := rfl
  have h2 : "Recipe with ID ".data = 'R' :: "ecipe with ID ".data := rfl
  rw [h1, h2] at hd
  simp at hd

/-- C5: on an OK backend response, lookup-by-identifier fails with the
not-found error exactly when the normalized result list is empty, and
otherwise returns its first element; on a transport failure it fails
with the HTTP error, which is never equal to a not-found message. -/
theorem fetchRecipeById_not_found_iff (env : ApiEnv) (id : String) :
    ((env.lookup id).ok = true →
      ((fetchRecipeById env id = .error (notFoundMessage id) ↔
          normalizedMeals (env.lookup id) = []) ∧
        (∀ m rest, normalizedMeals (env.lookup id) = m :: rest →
          fetchRecipeById env id = .ok m))) ∧
    ((env.lookup id).ok = false →
      (fetchRecipeById env id = .error (httpErrorMessage (env.lookup id).statusText) ∧
        httpErrorMessage (env.lookup id).statusText ≠ notFoundMessage id)) := by
  constructor
  · intro hok
    have hhr : handleResponse (env.lookup id) = .ok (normalizedMeals (env.lookup id)) := by
      simp [handleResponse, hok]
    refine ⟨⟨?_, ?_⟩, ?_⟩
    · intro herr
      cases hnm : normalizedMeals (env.lookup id) with
      | nil => rfl
      | cons m rest =>
        rw [hnm] at hhr
        simp [fetchRecipeById, hhr] at herr
    · intro hnil
      rw [hnil] at hhr
      simp [fetchRecipeById, hhr]
    · intro m rest hnm
      rw [hnm] at hhr
      simp [fetchRecipeById, hhr]
  · intro hbad
    have hhr : handleResponse (env.lookup id) =
        .error (httpErrorMessage (env.lookup id).statusText) := by
      simp [handleResponse, hbad]
    exact ⟨by simp [fetchRecipeById, hhr], httpError_ne_notFound _ id⟩

/-- C5 at a concrete input: `sampleEnv` answers the id `"missing"` with
an OK response whose result list is empty, and the lookup fails with
the not-found error. -/
theorem fetchRecipeById_not_found_iff_witness :
    (fetchRecipeById sampleEnv "missing" = .error (notFoundMessage "missing") ↔
        normalizedMeals (sampleEnv.lookup "missing") = []) ∧
      (∀ m rest, normalizedMeals (sampleEnv.lookup "missing") = m :: rest →
        fetchRecipeById sampleEnv "missing" = .ok m) :=
  (fetchRecipeById_not_found_iff sampleEnv "missing").1 (by decide)

/-- C4: an ingredient- or area-filtered search (name empty) that
obtained the abbreviated list `light` equals a `Promise.all` of one
`fetchRecipeById` per abbreviated entry; a success therefore has the
same length as `light` and pairs each abbreviated entry, in order, with
the full record its id-lookup produced, while one failed per-entry
lookup fails the whole search. -/
theorem searchRecipes_enrichment (env : ApiEnv) (p : SearchParams) (url : SearchUrl)
    (light : List IMeal)
    (hname : p.name = "")
    (hurl : searchUrl p = some url)
    (hres : handleResponse (fetchUrl env url) = .ok light) :
    searchRecipes env p =
      promiseAll (light.map (fun lightMeal => fetchRecipeById env lightMeal.idMeal)) ∧
    (∀ full, searchRecipes env p = .ok full →
      full.length = light.length ∧
      List.Forall₂ (fun lm fm => fetchRecipeById env lm.idMeal = Except.ok fm) light full) ∧
    ((∃ lm ∈ light, ∃ e, fetchRecipeById env lm.idMeal = .error e) →
      ∃ e, searchRecipes env p = .error e) := by
  have hcond : p.ingredient ≠ "" ∨ p.area ≠ "" := by
    by_contra hc
    push_neg at hc
    obtain ⟨hi, ha⟩ := hc
    rw [searchUrl] at hurl
    simp [hname, hi, ha] at hurl
  have heq : searchRecipes env p =
      promiseAll (light.map (fun lightMeal => fetchRecipeById env lightMeal.idMeal)) := by
    simp only [searchRecipes, hurl, hres]
    rw [if_pos hcond]
  refine ⟨heq, ?_, ?_⟩
  · intro full hfull
    rw [heq] at hfull
    have hf₂ := List.forall₂_map_left_iff.mp (promiseAll_ok_forall₂ hfull)
    exact ⟨hf₂.length_eq.symm, hf₂⟩
  · rintro ⟨lm, hlm, e, he⟩
    have hmem : Except.error (α := IMeal) e ∈
        light.map (fun lightMeal => fetchRecipeById env lightMeal.idMeal) :=
      List.mem_map.mpr ⟨lm, hlm, he⟩
    obtain ⟨d, hd⟩ := promiseAll_error_of_mem hmem
    exact ⟨d, heq.trans hd⟩

/-- C4 at a concrete input: searching `sampleEnv` by ingredient alone
goes through the abbreviated list of the filter endpoint and one
id-lookup per entry. -/
theorem searchRecipes_enrichment_witness :
    searchRecipes sampleEnv ⟨"", "chicken", ""⟩ =
      promiseAll ([sampleMeal "f1", sampleMeal "f2"].map
        (fun lightMeal => fetchRecipeById sampleEnv lightMeal.idMeal)) ∧
    (∀ full, searchRecipes sampleEnv ⟨"", "chicken", ""⟩ = .ok full →
      full.length = [sampleMeal "f1", sampleMeal "f2"].length ∧
      List.Forall₂ (fun lm fm => fetchRecipeById sampleEnv lm.idMeal = Except.ok fm)
        [sampleMeal "f1", sampleMeal "f2"] full) ∧
    ((∃ lm ∈ [sampleMeal "f1", sampleMeal "f2"], ∃ e,
        fetchRecipeById sampleEnv lm.idMeal = .error e) →
      ∃ e, searchRecipes sampleEnv ⟨"", "chicken", ""⟩ = .error e) :=
  searchRecipes_enrichment sampleEnv ⟨"", "chicken", ""⟩
    (.filterByIngredient "chicken") [sampleMeal "f1", sampleMeal "f2"]
    rfl (by decide) rfl

/-! ## Favourites store (`src/hooks/useFavourites.ts`)

The hook's state is the list of favourites; each operation is the pure
list transformer the corresponding `setFavourites` updater applies. -/

/-- The membership test `isFavourite`: whether some favourite has the
given id (`favourites.some(fav => fav.idMeal === mealId)`). -/
def isFavourite (favourites : List IFavourite) (mealId : String) : Bool :=
  favourites.any (fun fav => fav.idMeal == mealId)

/-- The `addFavourite` operation: appends the meal unless its id is
already a favourite. -/
def addFavourite (favourites : List IFavourite) (meal : IMeal) : List IFavourite :=
  if !isFavourite favourites meal.idMeal then favourites ++ [meal.toFavourite]
  else favourites

/-- The `removeFavourite` operation: keeps exactly the favourites whose
id differs (`prev.filter(fav => fav.idMeal !== mealId)`). -/
def removeFavourite (favourites : List IFavourite) (mealId : String) : List IFavourite :=
  favourites.filter (fun fav => fav.idMeal != mealId)

/-- The `addCommentToFavourite` operation: replaces the `userComment`
of every favourite whose id matches and keeps the others unchanged. -/
def addCommentToFavourite (favourites : List IFavourite) (mealId comment : String) :
    List IFavourite :=
  favourites.map (fun fav =>
    if fav.idMeal == mealId then { fav with userComment := some comment } else fav)

/-- The store's invariant: no two favourites share a recipe id. -/
def NoDupFavourites (favourites : List IFavourite) : Prop :=
  (favourites.map (fun fav => fav.idMeal)).Nodup

/-- Setting a comment never changes which ids are present, nor their
order. -/
theorem map_idMeal_addComment (l : List IFavourite) (mealId comment : String) :
    (addCommentToFavourite l mealId comment).map (fun fav => fav.idMeal) =
      l.map (fun fav => fav.idMeal) := by
  unfold addCommentToFavourite
  rw [List.map_map]
  refine List.map_congr_left ?_
  intro fav _
  show (if fav.idMeal == mealId then
      { fav with userComment := some comment } else fav).idMeal = fav.idMeal
  split <;> rfl

/-- A negative membership test means the id is on no favourite. -/
theorem not_mem_of_not_isFavourite {l : List IFavourite} {mealId : String}
    (h : isFavourite l mealId = false) :
    mealId ∉ l.map (fun fav => fav.idMeal) := by
  intro hmem
  obtain ⟨fav, hfav, hid⟩ := List.mem_map.mp hmem
  simp only [isFavourite, List.any_eq_false, beq_iff_eq] at h
  exact h fav hfav hid

/-- After a removal, the removed id is no longer a favourite. -/
theorem isFavourite_remove (l : List IFavourite) (mealId : String) :
    isFavourite (removeFavourite l mealId) mealId = false := by
  unfold isFavourite removeFavourite
  induction l with
  | nil => rfl
  | cons fav l ih =>
    by_cases h : fav.idMeal = mealId
    · simp [List.filter_cons, h, ih]
    · simp [List.filter_cons, h, ih]

/-- Every favourite surviving a removal has a different id. -/
theorem mem_remove_ne {l : List IFavourite} {mealId : String} {fav : IFavourite}
    (h : fav ∈ removeFavourite l mealId) : fav.idMeal ≠ mealId := by
  rw [removeFavourite] at h
  simpa using List.of_mem_filter h

/-- C6: the favourites list holds at most one entry per recipe id, and
every operation preserves that invariant: add is a no-op when the id is
already present and otherwise appends the new record last, keeping the
prior entries in order; remove only deletes entries; comment keeps the
id sequence unchanged. -/
theorem favourites_no_duplicates (l : List IFavourite) (meal : IMeal)
    (mealId comment : String) (hnd : NoDupFavourites l) :
    NoDupFavourites (addFavourite l meal) ∧
    NoDupFavourites (removeFavourite l mealId) ∧
    NoDupFavourites (addCommentToFavourite l mealId comment) ∧
    (isFavourite l meal.idMeal = true → addFavourite l meal = l) ∧
    (isFavourite l meal.idMeal = false →
      addFavourite l meal = l ++ [meal.toFavourite]) ∧
    List.Sublist (removeFavourite l mealId) l ∧
    (addCommentToFavourite l mealId comment).map (fun fav => fav.idMeal) =
      l.map (fun fav => fav.idMeal) := by
  refine ⟨?_, ?_, ?_, ?_, ?_, ?_, ?_⟩
  · cases h : isFavourite l meal.idMeal with
    | true => simpa [addFavourite, h] using hnd
    | false =>
      rw [NoDupFavourites, addFavourite, h]
      simp only [Bool.not_false, if_true, List.map_append]
      rw [List.nodup_append]
      refine ⟨hnd, List.nodup_singleton _, ?_⟩
      intro x hx hx'
      have hxid : x = meal.idMeal := by simpa [IMeal.toFavourite] using hx'
      exact not_mem_of_not_isFavourite h (hxid ▸ hx)
  · exact List.Nodup.sublist
      (List.Sublist.map _ (List.filter_sublist l)) hnd
  · rw [NoDupFavourites, map_idMeal_addComment]
    exact hnd
  · intro h
    simp [addFavourite, h]
  · intro h
    simp [addFavourite, h]
  · exact List.filter_sublist l
  · exact map_idMeal_addComment l mealId comment

/-- C6 at a concrete input: the invariant and the add/remove/comment
behaviour at a one-element favourites list. -/
theorem favourites_no_duplicates_witness :
    NoDupFavourites (addFavourite [(sampleMeal "1").toFavourite] (sampleMeal "2")) ∧
    NoDupFavourites (removeFavourite [(sampleMeal "1").toFavourite] "1") ∧
    NoDupFavourites (addCommentToFavourite [(sampleMeal "1").toFavourite] "1" "tasty") ∧
    (isFavourite [(sampleMeal "1").toFavourite] (sampleMeal "2").idMeal = true →
      addFavourite [(sampleMeal "1").toFavourite] (sampleMeal "2") =
        [(sampleMeal "1").toFavourite]) ∧
    (isFavourite [(sampleMeal "1").toFavourite] (sampleMeal "2").idMeal = false →
      addFavourite [(sampleMeal "1").toFavourite] (sampleMeal "2") =
        [(sampleMeal "1").toFavourite] ++ [(sampleMeal "2").toFavourite]) ∧
    List.Sublist (removeFavourite [(sampleMeal "1").toFavourite] "1")
      [(sampleMeal "1").toFavourite] ∧
    (addCommentToFavourite [(sampleMeal "1").toFavourite] "1" "tasty").map
        (fun fav => fav.idMeal) =
      [(sampleMeal "1").toFavourite].map (fun fav => fav.idMeal) :=
  favourites_no_duplicates [(sampleMeal "1").toFavourite] (sampleMeal "2") "1" "tasty"
    (by unfold NoDupFavourites; decide)

/-- C7: adding the same id twice starting from the empty list leaves
one entry; removing an absent id and commenting an absent id change
nothing; and after add, comment, remove, add for one id the membership
test holds and the re-added entry carries no comment from before the
removal. -/
theorem favourites_algebra (l : List IFavourite) (m1 m2 meal : IMeal)
    (mealId comment residual : String) :
    (m1.idMeal = m2.idMeal → (addFavourite (addFavourite [] m1) m2).length = 1) ∧
    (isFavourite l mealId = false → removeFavourite l mealId = l) ∧
    (isFavourite l mealId = false → addCommentToFavourite l mealId comment = l) ∧
    (isFavourite
        (addFavourite
          (removeFavourite
            (addCommentToFavourite (addFavourite l meal) meal.idMeal residual)
            meal.idMeal)
          meal)
        meal.idMeal = true ∧
      ∀ fav ∈ addFavourite
          (removeFavourite
            (addCommentToFavourite (addFavourite l meal) meal.idMeal residual)
            meal.idMeal)
          meal,
        fav.idMeal = meal.idMeal → fav.userComment = none) := by
  refine ⟨?_, ?_, ?_, ?_⟩
  · intro h12
    have h1 : addFavourite [] m1 = [m1.toFavourite] := by
      simp [addFavourite, isFavourite]
    have h2 : isFavourite [m1.toFavourite] m2.idMeal = true := by
      simp [isFavourite, IMeal.toFavourite, h12]
    rw [h1, addFavourite, h2]
    rfl
  · intro h
    rw [removeFavourite, List.filter_eq_self]
    intro fav hfav
    simp only [isFavourite, List.any_eq_false, beq_iff_eq] at h
    simpa using h fav hfav
  · intro h
    simp only [isFavourite, List.any_eq_false, beq_iff_eq] at h
    unfold addCommentToFavourite
    have hid : ∀ fav ∈ l,
        (if fav.idMeal == mealId then
          { fav with userComment := some comment } else fav) = fav := by
      intro fav hfav
      have hb : (fav.idMeal == mealId) = false := by
        simpa using h fav hfav
      simp [hb]
    rw [List.map_congr_left hid, List.map_id']
  · have hnot := isFavourite_remove
      (addCommentToFavourite (addFavourite l meal) meal.idMeal residual) meal.idMeal
    have happ : addFavourite
        (removeFavourite
          (addCommentToFavourite (addFavourite l meal) meal.idMeal residual)
          meal.idMeal)
        meal =
      removeFavourite
          (addCommentToFavourite (addFavourite l meal) meal.idMeal residual)
          meal.idMeal ++ [meal.toFavourite] := by
      rw [addFavourite, hnot]
      rfl
    constructor
    · rw [happ]
      simp [isFavourite, IMeal.toFavourite]
    · intro fav hfav hid
      rw [happ] at hfav
      rcases List.mem_append.mp hfav with hmem | hlast
      · exact absurd hid (mem_remove_ne hmem)
      · have : fav = meal.toFavourite := by simpa using hlast
        rw [this]
        rfl

/-- C7 at a concrete input: the double add and the add, comment,
remove, add round trip at concrete meals. -/
theorem favourites_algebra_witness :
    (addFavourite (addFavourite [] (sampleMeal "7")) (sampleMeal "7")).length = 1 ∧
    isFavourite
        (addFavourite
          (removeFavourite
            (addCommentToFavourite (addFavourite [] (sampleMeal "7"))
              (sampleMeal "7").idMeal "residual")
            (sampleMeal "7").idMeal)
          (sampleMeal "7"))
        (sampleMeal "7").idMeal = true :=
  ⟨(favourites_algebra [] (sampleMeal "7") (sampleMeal "7") (sampleMeal "7")
      "x" "c" "residual").1 rfl,
    (favourites_algebra [] (sampleMeal "7") (sampleMeal "7") (sampleMeal "7")
      "x" "c" "residual").2.2.2.1⟩

/-! ## Navigation and search-state cache (`src/App.tsx`)

The `App` component keeps `currentPath`, the optional `prevPath` and
the search session as component state; `navigate`, `goBack` and
`setSearchState` are modelled as the pure transformers those handlers
apply.  The hash side effect mirrors `currentPath` and carries no extra
state. -/

/-- The default route `goBack` falls back to. -/
def rootPath : String := "#/"

/-- The detail-route test `path.startsWith('#/recipe/')`, modelled as
a character-list prefix test. -/
def isRecipeRoute (path : String) : Bool :=
  "#/recipe/".data.isPrefixOf path.data

/-- The navigation state: the current route and the at-most-one
remembered previous route (`prevPath`, `null` when absent). -/
structure NavState where
  currentPath : String
  prevPath : Option String
deriving DecidableEq, Repr

/-- The `navigate` handler: switches to `path`, first saving the
current route as `prevPath` when the target is a detail route and the
current route is not. -/
def navigate (s : NavState) (path : String) : NavState :=
  if isRecipeRoute path && !isRecipeRoute s.currentPath then
    { currentPath := path, prevPath := some s.currentPath }
  else
    { currentPath := path, prevPath := s.prevPath }

/-- The `goBack` handler: when `prevPath` is truthy in the JS sense
(present and not the empty string) it moves there and clears it;
otherwise it moves to the root route and leaves `prevPath` as it is. -/
def goBack (s : NavState) : NavState :=
  match s.prevPath with
  | some prev =>
    if prev ≠ "" then { currentPath := prev, prevPath := none }
    else { currentPath := rootPath, prevPath := some prev }
  | none => { currentPath := rootPath, prevPath := none }

/-- C8: navigating to a detail route from a non-detail route saves the
current route as the previous route (overwriting any older value);
navigating while already on a detail route leaves the previous route
alone; `goBack` moves to a saved previous route and clears it, and
moves to the root route when none is saved — so after navigating to
root and then to a detail route, one `goBack` lands on root and a
second consecutive `goBack` lands on root again via the fallback. -/
theorem navigation_back_spec (s : NavState) (path prev : String) :
    (isRecipeRoute path = true → isRecipeRoute s.currentPath = false →
      navigate s path = { currentPath := path, prevPath := some s.currentPath }) ∧
    (isRecipeRoute s.currentPath = true → (navigate s path).prevPath = s.prevPath) ∧
    (s.prevPath = some prev → prev ≠ "" →
      goBack s = { currentPath := prev, prevPath := none }) ∧
    (s.prevPath = none → goBack s = { currentPath := rootPath, prevPath := none }) ∧
    (isRecipeRoute path = true →
      goBack (navigate (navigate s rootPath) path) =
        { currentPath := rootPath, prevPath := none } ∧
      goBack (goBack (navigate (navigate s rootPath) path)) =
        { currentPath := rootPath, prevPath := none }) := by
  have hroot : isRecipeRoute rootPath = false := by decide
  refine ⟨?_, ?_, ?_, ?_, ?_⟩
  · intro h1 h2
    simp [navigate, h1, h2]
  · intro h
    simp [navigate, h]
  · intro hp hne
    simp [goBack, hp, hne]
  · intro hp
    simp [goBack, hp]
  · intro h
    have s1 : navigate s rootPath = { currentPath := rootPath, prevPath := s.prevPath } := by
      simp [navigate, hroot]
    have s2 : navigate { currentPath := rootPath, prevPath := s.prevPath } path =
        { currentPath := path, prevPath := some rootPath } := by
      simp [navigate, h, hroot]
    have s3 : goBack { currentPath := path, prevPath := some rootPath } =
        { currentPath := rootPath, prevPath := none } := by
      simp [goBack, rootPath]
    have s4 : goBack { currentPath := rootPath, prevPath := (none : Option String) } =
        { currentPath := rootPath, prevPath := none } := by
      simp [goBack]
    rw [s1, s2, s3, s4]
    exact ⟨rfl, rfl⟩

/-- C8 at the spec's concrete inputs: from the search page, navigating
to root and then to the detail route of id 42, one `goBack` returns to
root and a second consecutive `goBack` also lands on root. -/
theorem navigation_back_spec_witness :
    goBack (navigate (navigate ⟨"#/search", none⟩ rootPath) "#/recipe/42") =
      { currentPath := rootPath, prevPath := none } ∧
    goBack (goBack (navigate (navigate ⟨"#/search", none⟩ rootPath) "#/recipe/42")) =
      { currentPath := rootPath, prevPath := none } :=
  (navigation_back_spec ⟨"#/search", none⟩ "#/recipe/42" "x").2.2.2.2 (by decide)

/-- C10: navigating to a non-detail route never changes the saved
previous route, so a user who reached a detail route from route A and
left it by a plain navigate to a non-detail route B is taken by a later
`goBack` to A, not to B. -/
theorem navigate_nonDetail_frame (s : NavState) (path routeA routeB : String)
    (p0 : Option String) :
    (isRecipeRoute path = false → (navigate s path).prevPath = s.prevPath) ∧
    (isRecipeRoute routeA = false → isRecipeRoute path = true →
      isRecipeRoute routeB = false → routeA ≠ "" →
      goBack (navigate (navigate { currentPath := routeA, prevPath := p0 } path) routeB) =
        { currentPath := routeA, prevPath := none }) := by
  constructor
  · intro h
    simp [navigate, h]
  · intro hA hpath hB hAne
    have s1 : navigate { currentPath := routeA, prevPath := p0 } path =
        { currentPath := path, prevPath := some routeA } := by
      simp [navigate, hpath, hA]
    have s2 : navigate { currentPath := path, prevPath := some routeA } routeB =
        { currentPath := routeB, prevPath := some routeA } := by
      simp [navigate, hB]
    have s3 : goBack { currentPath := routeB, prevPath := some routeA } =
        { currentPath := routeA, prevPath := none } := by
      simp [goBack, hAne]
    rw [s1, s2, s3]

/-- C10 at a concrete input: search page, detail page, favourites page,
then `goBack` lands on the search page saved before the detail visit,
not on the favourites page. -/
theorem navigate_nonDetail_frame_witness :
    goBack (navigate (navigate { currentPath := "#/search", prevPath := none }
        "#/recipe/7") "#/favourites") =
      { currentPath := "#/search", prevPath := none } :=
  (navigate_nonDetail_frame ⟨"#/search", none⟩ "#/recipe/7" "#/search" "#/favourites"
      none).2 (by decide) (by decide) (by decide) (by decide)

/-- The search session (`ISearchState` in `src/types`): filter fields,
last results, loading flag, error message and the initial-state flag. -/
structure ISearchState where
  name : String
  ingredient : String
  area : String
  meals : List IMeal
  loading : Bool
  error : Option String
  isInitial : Bool
deriving DecidableEq, Repr

/-- A partial update (`Partial<ISearchState>`): each field is either
absent (`none`) or supplies a new value. -/
structure SearchStatePatch where
  name : Option String := none
  ingredient : Option String := none
  area : Option String := none
  meals : Option (List IMeal) := none
  loading : Option Bool := none
  error : Option (Option String) := none
  isInitial : Option Bool := none

/-- The session the app starts with. -/
def initialSearchState : ISearchState :=
  { name := "", ingredient := "", area := "", meals := []
    loading := false, error := none, isInitial := true }

/-- The `setSearchState` wrapper: the JS spread `{ ...prev, ...s }`,
taking each field from the patch when present and from the previous
session otherwise. -/
def setSearchState (prev : ISearchState) (s : SearchStatePatch) : ISearchState :=
  { name := s.name.getD prev.name
    ingredient := s.ingredient.getD prev.ingredient
    area := s.area.getD prev.area
    meals := s.meals.getD prev.meals
    loading := s.loading.getD prev.loading
    error := s.error.getD prev.error
    isInitial := s.isInitial.getD prev.isInitial }

/-- C9: applying a partial update merges it field-by-field: every field
the patch mentions takes the patch's value and every field it does not
mention keeps its previous value — in particular the spec's scenario,
a loading-start patch followed by a results patch, leaves the name
field untouched and updates exactly the patched fields. -/
theorem setSearchState_merge (prev : ISearchState) (u : SearchStatePatch)
    (vs : String) (vm : List IMeal) (vb : Bool) (ve : Option String) :
    (u.name = none → (setSearchState prev u).name = prev.name) ∧
    (u.name = some vs → (setSearchState prev u).name = vs) ∧
    (u.ingredient = none → (setSearchState prev u).ingredient = prev.ingredient) ∧
    (u.ingredient = some vs → (setSearchState prev u).ingredient = vs) ∧
    (u.area = none → (setSearchState prev u).area = prev.area) ∧
    (u.area = some vs → (setSearchState prev u).area = vs) ∧
    (u.meals = none → (setSearchState prev u).meals = prev.meals) ∧
    (u.meals = some vm → (setSearchState prev u).meals = vm) ∧
    (u.loading = none → (setSearchState prev u).loading = prev.loading) ∧
    (u.loading = some vb → (setSearchState prev u).loading = vb) ∧
    (u.error = none → (setSearchState prev u).error = prev.error) ∧
    (u.error = some ve → (setSearchState prev u).error = ve) ∧
    (u.isInitial = none → (setSearchState prev u).isInitial = prev.isInitial) ∧
    (u.isInitial = some vb → (setSearchState prev u).isInitial = vb) ∧
    (setSearchState (setSearchState initialSearchState { loading := some true })
        { meals := some vm, loading := some false } =
      { initialSearchState with meals := vm, loading := false }) := by
  refine ⟨?_, ?_, ?_, ?_, ?_, ?_, ?_, ?_, ?_, ?_, ?_, ?_, ?_, ?_, rfl⟩ <;>
    (intro h; simp [setSearchState, h])

/-- C9 at the spec's concrete input: a patch naming only the name field
replaces it, and the loading-then-results patch pair leaves the name
field of the initial session unchanged. -/
theorem setSearchState_merge_witness :
    (setSearchState initialSearchState { name := some "chicken" }).name = "chicken" ∧
    setSearchState (setSearchState initialSearchState { loading := some true })
        { meals := some [sampleMeal "5"], loading := some false } =
      { initialSearchState with meals := [sampleMeal "5"], loading := false } :=
  ⟨(setSearchState_merge initialSearchState { name := some "chicken" } "chicken" []
      false none).2.1 rfl,
    (setSearchState_merge initialSearchState { name := some "chicken" } "chicken"
      [sampleMeal "5"] false none).2.2.2.2.2.2.2.2.2.2.2.2.2.2⟩

end Raktar
